import Mathlib

/-!
Shallow embedding of the rental availability / lifecycle engine of the
car-next codebase (models `src/models/Rental.ts` inside `src/models/User.ts`,
`src/models/Vehicle.ts`, `src/pages/api/rentals/index.ts`, the rentals
`[id]` PUT handler, and the vehicle API handlers).

Dates are modelled as `Int` millisecond timestamps (JavaScript
`Date.getTime()`).  Object ids are `Nat`.  The durable store is a list of
records; `findById` is `List.find?` on the id and the by-id update of a
mongoose `save` is a map over the list.
-/

namespace CarNext

/-- The `status` enum of the rental schema:
`['pending', 'active', 'completed', 'cancelled']`. -/
inductive RStatus where
  | pending
  | active
  | completed
  | cancelled
deriving DecidableEq, Repr

/-- A persisted rental document (fields of `rentalSchema` in
`src/models/Rental.ts`). -/
structure Rental where
  rid : Nat
  user : Nat
  vehicle : Nat
  startDate : Int
  endDate : Int
  totalCost : Int
  status : RStatus
  pickupLocation : String
  dropoffLocation : String
  additionalDrivers : Int
  insuranceOption : String
  paymentMethod : String
  paymentStatus : String
deriving DecidableEq, Repr

/-- A persisted vehicle document (the fields of `vehicleSchema` in
`src/models/Vehicle.ts` that the rental engine reads). -/
structure Vehicle where
  vid : Nat
  dailyRate : Int
  isAvailable : Bool
  lastServiced : Option Int
  nextServiceDue : Option Int
deriving DecidableEq, Repr

/-- One millisecond-count day: `1000 * 3600 * 24`. -/
def dayMs : Int := 86400000

/-- `90 * 24 * 60 * 60 * 1000` milliseconds (`vehicleSchema.pre('save')`). -/
def ninetyDaysMs : Int := 7776000000

/-- JavaScript `Math.ceil (a / b)` for integer `a` and positive integer `b`. -/
def ceilDiv (a b : Int) : Int := -((-a).ediv b)

/-- The conflict filter of `rentalSchema.statics.checkVehicleAvailability`:
vehicle matches, `status ∈ {'pending','active'}`, and the three-branch `$or`
`[{startDate < end ∧ endDate > start}, {start ≤ startDate < end},
{start < endDate ≤ end}]`. -/
def conflictsQuery (vehicleId : Nat) (s e : Int) (r : Rental) : Bool :=
  r.vehicle == vehicleId &&
  (r.status == .pending || r.status == .active) &&
  ((decide (r.startDate < e) && decide (r.endDate > s)) ||
   (decide (r.startDate ≥ s) && decide (r.startDate < e)) ||
   (decide (r.endDate > s) && decide (r.endDate ≤ e)))

/-- `rentalSchema.statics.checkVehicleAvailability`: true iff the list of
conflicting rentals has length 0. -/
def checkVehicleAvailability (store : List Rental) (vehicleId : Nat)
    (s e : Int) : Bool :=
  (store.filter (conflictsQuery vehicleId s e)).length == 0

/-- `Rental.findById`. -/
def findRental (store : List Rental) (rid : Nat) : Option Rental :=
  store.find? (fun r => r.rid == rid)

/-- A mongoose `save` of a fetched document writes it back by `_id`. -/
def updateStore (store : List Rental) (r' : Rental) : List Rental :=
  store.map (fun r => if r.rid == r'.rid then r' else r)

/-- Schema validation run on `save`, restricted to the constraints of
`rentalSchema`: `totalCost ≥ 0`, `additionalDrivers ≥ 0`, the three string
enums, and the required non-empty location strings. -/
def rentalDocValid (r : Rental) : Bool :=
  decide (0 ≤ r.totalCost) &&
  decide (0 ≤ r.additionalDrivers) &&
  (r.insuranceOption == "basic" || r.insuranceOption == "premium" ||
    r.insuranceOption == "full") &&
  (r.paymentMethod == "creditCard" || r.paymentMethod == "debitCard" ||
    r.paymentMethod == "paypal") &&
  (r.paymentStatus == "pending" || r.paymentStatus == "paid" ||
    r.paymentStatus == "refunded") &&
  (r.pickupLocation != "") && (r.dropoffLocation != "")

/-- `rentalSchema.pre('save')` for a new document (`isNew`): re-run the
availability check against the current store, then validate and insert. -/
def saveNewRental (store : List Rental) (r : Rental) :
    Option (List Rental) :=
  if checkVehicleAvailability store r.vehicle r.startDate r.endDate &&
      rentalDocValid r then
    some (store ++ [r])
  else
    none

/-- `rentalSchema.pre('save')` for a fetched document whose `startDate` or
`endDate` was modified: the availability re-check scans the whole store
(including the stored version of the document itself — the static takes no
exclusion id). -/
def saveRedatedRental (store : List Rental) (rid : Nat)
    (newStart newEnd : Int) : Option (List Rental) :=
  match findRental store rid with
  | none => none
  | some r =>
    if checkVehicleAvailability store r.vehicle newStart newEnd &&
        rentalDocValid { r with startDate := newStart, endDate := newEnd } then
      some (updateStore store { r with startDate := newStart, endDate := newEnd })
    else
      none

/-- `rentalSchema.methods.cancel`: guard, assign `cancelled`.  (The method
then saves; dates are untouched so the pre-save availability check does not
run.) -/
def cancelDoc (r : Rental) : Except String Rental :=
  if r.status ≠ .pending ∧ r.status ≠ .active then
    .error "Only pending or active rentals can be cancelled"
  else
    .ok { r with status := .cancelled }

/-- `rentalSchema.methods.complete`: guard, assign `completed`. -/
def completeDoc (r : Rental) : Except String Rental :=
  if r.status ≠ .active then
    .error "Only active rentals can be completed"
  else
    .ok { r with status := .completed }

/-- A sanitized JSON value appearing in a request body. -/
inductive PVal where
  | pstr (s : String)
  | pint (n : Int)
deriving DecidableEq, Repr

/-- A sanitized request body: the key/value pairs of the JSON object
(keys unique after JSON parsing; lookup takes the first binding). -/
def Body := List (String × PVal)

/-- `body[key]` for a parsed JSON object. -/
def getKey (body : List (String × PVal)) (k : String) : Option PVal :=
  (body.find? (fun kv => kv.1 == k)).map (fun kv => kv.2)

/-- The status enum cast mongoose applies when a string is assigned to the
`status` path. -/
def parseStatus : String → Option RStatus
  | "pending" => some .pending
  | "active" => some .active
  | "completed" => some .completed
  | "cancelled" => some .cancelled
  | _ => none

/-- The `insuranceOption` part of `Object.assign(rental, updates)`: assign a
string value, fail the save-time cast/validation on an int. -/
def applyInsuranceKey (r : Rental) (updates : List (String × PVal)) :
    Option Rental :=
  match getKey updates "insuranceOption" with
  | some (.pstr s) => some { r with insuranceOption := s }
  | some (.pint _) => none
  | none => some r

/-- The `additionalDrivers` part of `Object.assign(rental, updates)`: assign
an int value, fail the save-time cast/validation on a string. -/
def applyDriversKey (r : Rental) (updates : List (String × PVal)) :
    Option Rental :=
  match getKey updates "additionalDrivers" with
  | some (.pint n) => applyInsuranceKey { r with additionalDrivers := n } updates
  | some (.pstr _) => none
  | none => applyInsuranceKey r updates

/-- The `status` part of `Object.assign(rental, updates)`, given the looked
up status value: cast the string through the enum, fail the save-time
validation on a non-enum value. -/
def applyStatusKey : Option PVal → Rental → List (String × PVal) →
    Option Rental
  | some (.pint _), _, _ => none
  | some (.pstr s), r, updates =>
    match parseStatus s with
    | none => none
    | some st => applyDriversKey { r with status := st } updates
  | none, r, updates => applyDriversKey r updates

/-- `Object.assign(rental, updates)` for the filtered update object of the
rentals PUT handler (keys drawn from `['status', 'additionalDrivers',
'insuranceOption']`), with mongoose's path casts: a non-enum status string or
a wrongly-typed value for a path fails the later validation. -/
def applyRentalUpdates (r : Rental) (updates : List (String × PVal)) :
    Option Rental :=
  applyStatusKey (getKey updates "status") r updates

/-- The rental fields outside the PUT allow-list that C8 names:
`(startDate, endDate, vehicle, user, totalCost)`. -/
def frameFields (r : Rental) : Int × Int × Nat × Nat × Int :=
  (r.startDate, r.endDate, r.vehicle, r.user, r.totalCost)

/-- Saving a fetched rental whose dates were not modified: the pre-save
availability check does not fire; schema validation runs. -/
def saveExistingRental (store : List Rental) (r' : Rental) :
    Option (List Rental) :=
  if rentalDocValid r' then some (updateStore store r') else none

/-- The field allow-list of the rentals `[id]` PUT handler. -/
def allowedUpdates : List String := ["status", "additionalDrivers", "insuranceOption"]

/-- `await rental.save()` in the PUT handler: 200 with the new store on
success, 500 (the thrown error through `handleError`) on failure. -/
def putSaveResult (store : List Rental) (r' : Rental) : Nat × List Rental :=
  match saveExistingRental store r' with
  | none => (500, store)
  | some store' => (200, store')

/-- `await rental.cancel()` / `await rental.complete()` in the PUT handler:
a thrown transition error becomes HTTP 500, otherwise the mutated document
is saved. -/
def putGuarded (store : List Rental) : Except String Rental →
    Nat × List Rental
  | .error _ => (500, store)
  | .ok r' => putSaveResult store r'

/-- The `Object.assign` + `save` else-branch of the PUT handler: a cast or
validation failure becomes HTTP 500. -/
def putAssignResult (store : List Rental) : Option Rental →
    Nat × List Rental
  | none => (500, store)
  | some r' => putSaveResult store r'

/-- `handlePut` of the rentals `[id]` API route (after the session/ownership
checks): find the rental, keep only allow-listed keys of the body, 400 when
nothing remains, route `status: 'cancelled'` through `cancel()` and
`status: 'completed'` through `complete()`, and `Object.assign` + `save`
everything else.  A thrown transition or validation error reaches
`handleError` as a plain `Error` and returns HTTP 500.  Result: HTTP status
code and the resulting store. -/
def rentalsIdPut (store : List Rental) (rid : Nat)
    (body : List (String × PVal)) : Nat × List Rental :=
  match findRental store rid with
  | none => (404, store)
  | some r =>
    let updates := body.filter (fun kv => allowedUpdates.contains kv.1)
    if updates.isEmpty then
      (400, store)
    else if getKey updates "status" == some (.pstr "cancelled") then
      putGuarded store (cancelDoc r)
    else if getKey updates "status" == some (.pstr "completed") then
      putGuarded store (completeDoc r)
    else
      putAssignResult store (applyRentalUpdates r updates)

/-- The parsed create request of `handlePost` in
`src/pages/api/rentals/index.ts`; `none` / `""` model a missing or falsy
field. -/
structure CreateInput where
  vehicleId : Option Nat
  startDate : Option Int
  endDate : Option Int
  pickupLocation : String
  dropoffLocation : String
  additionalDrivers : Option Int
  insuranceOption : String
  paymentMethod : String
deriving DecidableEq, Repr

/-- `Vehicle.findById`. -/
def findVehicle (vehicles : List Vehicle) (vid : Nat) : Option Vehicle :=
  vehicles.find? (fun v => v.vid == vid)

/-- The rental document `handlePost` constructs (`new Rental({...})`). -/
def mkRental (newId userId vid : Nat) (s e totalCost : Int)
    (input : CreateInput) : Rental :=
  { rid := newId
    user := userId
    vehicle := vid
    startDate := s
    endDate := e
    totalCost := totalCost
    status := .pending
    pickupLocation := input.pickupLocation
    dropoffLocation := input.dropoffLocation
    additionalDrivers := (input.additionalDrivers.getD 0)
    insuranceOption := input.insuranceOption
    paymentMethod := input.paymentMethod
    paymentStatus := "pending" }

/-- `handlePost` of `src/pages/api/rentals/index.ts` (after authentication):
required-field check (400), date-order check (400), availability check (400
on conflict), vehicle lookup (404), `totalCost = Math.ceil((end - start) /
(1000*3600*24)) * dailyRate`, then `save` of the new pending rental (a save
rejection surfaces as 500).  Result: HTTP status and resulting store. -/
def rentalsPost (store : List Rental) (vehicles : List Vehicle)
    (userId : Nat) (input : CreateInput) (newId : Nat) :
    Nat × List Rental :=
  match input.vehicleId, input.startDate, input.endDate with
  | some vid, some s, some e =>
    if input.pickupLocation == "" || input.dropoffLocation == "" ||
        input.insuranceOption == "" || input.paymentMethod == "" then
      (400, store)
    else if s ≥ e then
      (400, store)
    else if !checkVehicleAvailability store vid s e then
      (400, store)
    else
      match findVehicle vehicles vid with
      | none => (404, store)
      | some veh =>
        let days := ceilDiv (e - s) dayMs
        let totalCost := days * veh.dailyRate
        match saveNewRental store (mkRental newId userId vid s e totalCost input) with
        | none => (500, store)
        | some store' => (201, store')
  | _, _, _ => (400, store)

/-- A sanitized vehicle-update body, restricted to the fields the modelled
vehicle record carries; `none` means the key is absent from the body. -/
structure VehiclePatch where
  dailyRate : Option Int := none
  isAvailable : Option Bool := none
  lastServiced : Option Int := none
  nextServiceDue : Option Int := none
deriving DecidableEq, Repr

/-- MongoDB `$set` of the patch's present fields onto a vehicle document. -/
def applyVehicleSet (v : Vehicle) (p : VehiclePatch) : Vehicle :=
  { v with
    dailyRate := p.dailyRate.getD v.dailyRate
    isAvailable := p.isAvailable.getD v.isAvailable
    lastServiced := (p.lastServiced.map some).getD v.lastServiced
    nextServiceDue := (p.nextServiceDue.map some).getD v.nextServiceDue }

/-- `vehicleSchema.pre('save')`: when `lastServiced` was modified,
`nextServiceDue = new Date(lastServiced.getTime() + 90*24*60*60*1000)`. -/
def vehicleSaveHook (v : Vehicle) (lastServicedModified : Bool) : Vehicle :=
  if lastServicedModified then
    { v with nextServiceDue := v.lastServiced.map (· + ninetyDaysMs) }
  else
    v

/-- `handlePut` of `src/pages/api/vehicles/index.ts` (catalog-level vehicle
update), restricted to the modelled fields: the handler copies each present
body field into `updateData`, and when `lastServiced` is present it also sets
`updateData.nextServiceDue = calculateNextServiceDue(lastServiced)`; a
`nextServiceDue` sent in the body is never copied.  The write goes through
`findByIdAndUpdate` with `$set: updateData`. -/
def vehiclesCatalogPut (vehicles : List Vehicle) (vid : Nat)
    (p : VehiclePatch) : Nat × List Vehicle :=
  let updateData : VehiclePatch :=
    { dailyRate := p.dailyRate
      isAvailable := p.isAvailable
      lastServiced := p.lastServiced
      nextServiceDue := p.lastServiced.map (· + ninetyDaysMs) }
  match findVehicle vehicles vid with
  | none => (404, vehicles)
  | some _ =>
    (200, vehicles.map (fun v =>
      if v.vid == vid then applyVehicleSet v updateData else v))

/-- `handlePut` of the vehicles `[id]` API route: the whole sanitized body is
written through `findByIdAndUpdate(id, { $set: sanitizedBody })`, which
bypasses the `pre('save')` hook and recomputes nothing. -/
def vehiclesIdPut (vehicles : List Vehicle) (vid : Nat)
    (p : VehiclePatch) : Nat × List Vehicle :=
  let vehicles' := vehicles.map (fun v =>
    if v.vid == vid then applyVehicleSet v p else v)
  match findVehicle vehicles vid with
  | none => (404, vehicles)
  | some _ => (200, vehicles')

/-- The §3 vehicle invariant: `nextServiceDue == lastServiced + 90 days`
whenever `lastServiced` is set. -/
def serviceInvariant (v : Vehicle) : Prop :=
  ∀ d : Int, v.lastServiced = some d → v.nextServiceDue = some (d + ninetyDaysMs)

/-- Two rentals are schedule-compatible when they are not both occupying the
same vehicle with intersecting half-open `[start, end)` windows while both
counting (status `pending` or `active`). -/
def compat (r1 r2 : Rental) : Prop :=
  r1.vehicle = r2.vehicle →
  (r1.status = .pending ∨ r1.status = .active) →
  (r2.status = .pending ∨ r2.status = .active) →
  ¬(r1.startDate < r2.endDate ∧ r1.endDate > r2.startDate)

instance : DecidablePred fun p : Rental × Rental => compat p.1 p.2 :=
  fun _ => by unfold compat; infer_instance

instance (r1 r2 : Rental) : Decidable (compat r1 r2) := by
  unfold compat; infer_instance

/-- The §3 scheduling invariant over a whole store: every two distinct
records are schedule-compatible. -/
def noOverlap (store : List Rental) : Prop :=
  store.Pairwise compat

instance (store : List Rental) : Decidable (noOverlap store) :=
  List.instDecidablePairwise store

/-- A concrete pending rental of vehicle 1 over `[0, 10)`. -/
def exRental : Rental :=
  ⟨1, 7, 1, 0, 10, 50, .pending, "a", "b", 0, "basic", "creditCard", "pending"⟩

/-- A concrete vehicle with `isAvailable = false` and daily rate 50. -/
def exVehicle : Vehicle := ⟨1, 50, false, none, none⟩

/-- A concrete create request for vehicle 1 over `[0, 10)`. -/
def exInput : CreateInput :=
  ⟨some 1, some 0, some 10, "a", "b", none, "basic", "creditCard"⟩

/-- A concrete vehicle with daily rate 50 for the cost example. -/
def exVehicleJune : Vehicle := ⟨3, 50, true, none, none⟩

/-- A concrete create request for `start = 2024-06-01T00:00Z` and
`end = 2024-06-04T00:00Z` (millisecond timestamps). -/
def exInputJune : CreateInput :=
  ⟨some 3, some 1717200000000, some 1717459200000, "Madrid", "Valencia", none,
    "basic", "creditCard"⟩

/-! ## Theorems -/

theorem conflictsQuery_iff {r : Rental} (hr : r.startDate < r.endDate)
    (v : Nat) (s e : Int) :
    conflictsQuery v s e r = true ↔
      r.vehicle = v ∧ (r.status = .pending ∨ r.status = .active) ∧
        r.startDate < e ∧ r.endDate > s := by
  unfold conflictsQuery
  simp only [Bool.and_eq_true, Bool.or_eq_true, decide_eq_true_eq, beq_iff_eq]
  constructor
  · rintro ⟨⟨hv, hst⟩, hb⟩
    refine ⟨hv, hst, ?_, ?_⟩ <;>
      rcases hb with (⟨h1, h2⟩ | ⟨h1, h2⟩) | ⟨h1, h2⟩ <;> omega
  · rintro ⟨hv, hst, h1, h2⟩
    exact ⟨⟨hv, hst⟩, Or.inl (Or.inl ⟨h1, h2⟩)⟩

theorem checkVehicleAvailability_iff (store : List Rental) (v : Nat)
    (s e : Int) :
    checkVehicleAvailability store v s e = true ↔
      ∀ r ∈ store, ¬ conflictsQuery v s e r = true := by
  unfold checkVehicleAvailability
  rw [beq_iff_eq, List.length_eq_zero, List.filter_eq_nil_iff]

/-- C1: `checkAvailability(vehicleId, start, end)` returns true iff no rental
with status `pending` or `active` on that vehicle satisfies
`R.start < end ∧ R.end > start`; in particular rentals touching the window
only at an endpoint never block it.  (The store is well-formed: every stored
rental satisfies `startDate < endDate`, as the data model requires.) -/
theorem checkAvailability_no_conflict_iff (store : List Rental) (v : Nat)
    (s e : Int) (hwf : ∀ r ∈ store, r.startDate < r.endDate) :
    (checkVehicleAvailability store v s e = true ↔
      ∀ r ∈ store, r.vehicle = v → (r.status = .pending ∨ r.status = .active) →
        ¬(r.startDate < e ∧ r.endDate > s)) ∧
    ((∀ r ∈ store, r.vehicle = v → (r.status = .pending ∨ r.status = .active) →
        r.endDate = s ∨ r.startDate = e) →
      checkVehicleAvailability store v s e = true) := by
  have hmain : checkVehicleAvailability store v s e = true ↔
      ∀ r ∈ store, r.vehicle = v → (r.status = .pending ∨ r.status = .active) →
        ¬(r.startDate < e ∧ r.endDate > s) := by
    rw [checkVehicleAvailability_iff]
    constructor
    · intro h r hm hv hs hov
      exact h r hm ((conflictsQuery_iff (hwf r hm) v s e).2 ⟨hv, hs, hov.1, hov.2⟩)
    · intro h r hm hc
      obtain ⟨hv, hs, h1, h2⟩ := (conflictsQuery_iff (hwf r hm) v s e).1 hc
      exact h r hm hv hs ⟨h1, h2⟩
  refine ⟨hmain, ?_⟩
  intro htouch
  rw [hmain]
  rintro r hm hv hs ⟨h1, h2⟩
  rcases htouch r hm hv hs with h | h <;> omega

/-- Witness for C1 at a concrete store: the rental `[0, 10)` touches the
queried window `[10, 20)` only at its endpoint, and the query returns
available. -/
theorem checkAvailability_no_conflict_iff_witness :
    checkVehicleAvailability [exRental] 1 10 20 = true :=
  (checkAvailability_no_conflict_iff [exRental] 1 10 20 (by decide)).2 (by decide)

/-- C3 counterexample: `checkVehicleAvailability` takes no exclusion id.
Re-dating the only rental of the store (pending, vehicle 1, `[0, 10)`) to
`[5, 15)` — a window overlapping nothing but that rental's own stored
interval — fails the pre-save availability re-check instead of
succeeding. -/
theorem redate_self_overlap_fails :
    saveRedatedRental [exRental] 1 5 15 = none ∧
    checkVehicleAvailability [exRental] 1 5 15 = false := by decide

/-- C3 amended: the availability scan has no exclusion parameter and the
date-change pre-save re-check scans the whole store including the stored
version of the rental being saved, so re-dating a pending or active rental
to any window that overlaps its own stored interval fails. -/
theorem redate_overlapping_self_always_fails (store : List Rental)
    (rid : Nat) (r : Rental) (newS newE : Int)
    (hf : findRental store rid = some r)
    (hs : r.status = .pending ∨ r.status = .active)
    (h1 : r.startDate < newE) (h2 : r.endDate > newS) :
    saveRedatedRental store rid newS newE = none := by
  have hmem : r ∈ store := List.mem_of_find?_eq_some hf
  have hconf : conflictsQuery r.vehicle newS newE r = true := by
    unfold conflictsQuery
    rcases hs with h | h <;>
      simp [h, decide_eq_true h1, decide_eq_true h2]
  have hav : checkVehicleAvailability store r.vehicle newS newE = false := by
    unfold checkVehicleAvailability
    rw [beq_eq_false_iff_ne]
    intro h0
    have hnil : store.filter (conflictsQuery r.vehicle newS newE) = [] :=
      List.length_eq_zero.mp h0
    have : r ∈ store.filter (conflictsQuery r.vehicle newS newE) :=
      List.mem_filter.2 ⟨hmem, hconf⟩
    rw [hnil] at this
    exact absurd this (List.not_mem_nil r)
  unfold saveRedatedRental
  rw [hf]
  simp [hav]

/-- Witness for C3's amended claim: re-dating the stored `[0, 10)` rental to
`[2, 12)` fails. -/
theorem redate_overlapping_self_always_fails_witness :
    saveRedatedRental [exRental] 1 2 12 = none :=
  redate_overlapping_self_always_fails [exRental] 1 exRental 2 12
    (by decide) (by decide) (by decide) (by decide)

/-- C4 counterexample: a PUT patching `status` to `'active'` on a completed
rental is not rejected — the handler's else-branch `Object.assign`s the
status with no transition guard, and the save hook checks nothing because
the dates are unmodified.  The terminal rental comes back `active` with
HTTP 200. -/
theorem terminal_status_patch_not_rejected :
    rentalsIdPut [{ exRental with status := .completed }] 1
        [("status", PVal.pstr "active")] =
      (200, [{ exRental with status := .active }]) := by decide

/-- C4 amended: only the status values `'cancelled'` and `'completed'` route
through the guarded `cancel()`/`complete()` methods; a patch with
`status: 'active'` is assigned directly and saved with no transition check,
succeeding from any current status — including the terminal ones. -/
theorem status_patch_active_assigned_directly (store : List Rental)
    (rid : Nat) (r : Rental)
    (hf : findRental store rid = some r)
    (hvalid : rentalDocValid r = true) :
    rentalsIdPut store rid [("status", PVal.pstr "active")] =
      (200, updateStore store { r with status := .active }) := by
  have hvalid' : rentalDocValid { r with status := RStatus.active } = true :=
    hvalid
  simp [rentalsIdPut, hf, allowedUpdates, getKey, applyRentalUpdates,
    applyStatusKey, applyDriversKey, applyInsuranceKey, parseStatus,
    putAssignResult, putSaveResult, saveExistingRental, hvalid']

/-- Witness for C4's amended claim: the completed `[0, 10)` rental is patched
straight back to `active`. -/
theorem status_patch_active_assigned_directly_witness :
    rentalsIdPut [{ exRental with status := .completed }] 1
        [("status", PVal.pstr "active")] =
      (200, updateStore [{ exRental with status := .completed }]
        { { exRental with status := .completed } with status := .active }) :=
  status_patch_active_assigned_directly
    [{ exRental with status := .completed }] 1
    { exRental with status := .completed } (by decide) (by decide)

/-- C5: through the status-update route, `cancel()` succeeds (status becomes
`cancelled`) iff the current status is `pending` or `active` and otherwise
fails leaving the store unchanged; `complete()` succeeds (status becomes
`completed`) iff the current status is `active` and otherwise fails leaving
the store unchanged. -/
theorem cancel_complete_state_machine (store : List Rental) (rid : Nat)
    (r : Rental) (hf : findRental store rid = some r)
    (hvalid : rentalDocValid r = true) :
    ((r.status = .pending ∨ r.status = .active) →
      rentalsIdPut store rid [("status", PVal.pstr "cancelled")] =
        (200, updateStore store { r with status := .cancelled })) ∧
    (¬(r.status = .pending ∨ r.status = .active) →
      rentalsIdPut store rid [("status", PVal.pstr "cancelled")] =
        (500, store)) ∧
    (r.status = .active →
      rentalsIdPut store rid [("status", PVal.pstr "completed")] =
        (200, updateStore store { r with status := .completed })) ∧
    (r.status ≠ .active →
      rentalsIdPut store rid [("status", PVal.pstr "completed")] =
        (500, store)) := by
  have hvc : rentalDocValid { r with status := RStatus.cancelled } = true :=
    hvalid
  have hvk : rentalDocValid { r with status := RStatus.completed } = true :=
    hvalid
  refine ⟨?_, ?_, ?_, ?_⟩
  · intro hs
    rcases hs with h | h <;>
      simp [rentalsIdPut, hf, allowedUpdates, getKey, cancelDoc, h,
        putGuarded, putSaveResult, saveExistingRental, hvc]
  · intro hns
    push_neg at hns
    simp [rentalsIdPut, hf, allowedUpdates, getKey, cancelDoc, hns.1, hns.2,
      putGuarded]
  · intro h
    simp [rentalsIdPut, hf, allowedUpdates, getKey, completeDoc, h,
      putGuarded, putSaveResult, saveExistingRental, hvk]
  · intro h
    simp [rentalsIdPut, hf, allowedUpdates, getKey, completeDoc, h,
      putGuarded]

/-- Witness for C5: cancelling the pending `[0, 10)` rental succeeds, while
completing it (pending, not active) fails with the store unchanged. -/
theorem cancel_complete_state_machine_witness :
    rentalsIdPut [exRental] 1 [("status", PVal.pstr "cancelled")] =
      (200, updateStore [exRental] { exRental with status := .cancelled }) ∧
    rentalsIdPut [exRental] 1 [("status", PVal.pstr "completed")] =
      (500, [exRental]) :=
  ⟨(cancel_complete_state_machine [exRental] 1 exRental (by decide)
      (by decide)).1 (by decide),
   (cancel_complete_state_machine [exRental] 1 exRental (by decide)
      (by decide)).2.2.2 (by decide)⟩

/-- C6 counterexample: with the pending `[0, 10)` rental stored, an
overlapping create request for the same vehicle is rejected with HTTP 400
(`'Vehicle is not available for the selected dates'`), not 409, and no
rental is created. -/
theorem conflict_create_returns_400_not_409 :
    (rentalsPost [exRental] [exVehicle] 7 exInput 2).1 = 400 ∧
    ¬((rentalsPost [exRental] [exVehicle] 7 exInput 2).1 = 409) ∧
    (rentalsPost [exRental] [exVehicle] 7 exInput 2).2 = [exRental] := by
  decide

/-- C6 amended: when the availability check reports a conflict on an
otherwise well-formed create request, `createRental` fails with HTTP 400
(the handler throws `ApiError(400, ...)`; no 409 mapping exists for this
path) and no rental record is created. -/
theorem conflict_create_fails_400_no_state (store : List Rental)
    (vehicles : List Vehicle) (userId : Nat) (input : CreateInput)
    (newId vid : Nat) (s e : Int)
    (hv : input.vehicleId = some vid) (hsd : input.startDate = some s)
    (hed : input.endDate = some e)
    (hp : input.pickupLocation ≠ "") (hd : input.dropoffLocation ≠ "")
    (hi : input.insuranceOption ≠ "") (hm : input.paymentMethod ≠ "")
    (hlt : s < e)
    (hconf : checkVehicleAvailability store vid s e = false) :
    rentalsPost store vehicles userId input newId = (400, store) := by
  have hge : ¬(s ≥ e) := not_le.2 hlt
  simp [rentalsPost, hv, hsd, hed, hp, hd, hi, hm, hge, hconf]

/-- Witness for C6's amended claim at the concrete conflicting request. -/
theorem conflict_create_fails_400_no_state_witness :
    rentalsPost [exRental] [exVehicle] 7 exInput 3 = (400, [exRental]) :=
  conflict_create_fails_400_no_state [exRental] [exVehicle] 7 exInput 3 1 0 10
    rfl rfl rfl (by decide) (by decide) (by decide) (by decide) (by decide)
    (by decide)

theorem saveNewRental_eq_some {store : List Rental} {r : Rental}
    {store' : List Rental} (h : saveNewRental store r = some store') :
    store' = store ++ [r] := by
  unfold saveNewRental at h
  split at h
  · exact (Option.some_inj.mp h).symm
  · exact absurd h (by simp)

/-- C7: every successful create persists
`totalCost = ceil_days(end - start) * dailyRate`, the elapsed milliseconds
rounded up to whole days and multiplied by the vehicle's daily rate. -/
theorem created_totalCost_ceil_days (store : List Rental)
    (vehicles : List Vehicle) (userId : Nat) (input : CreateInput)
    (newId vid : Nat) (s e : Int) (veh : Vehicle)
    (hv : input.vehicleId = some vid) (hsd : input.startDate = some s)
    (hed : input.endDate = some e) (hveh : findVehicle vehicles vid = some veh)
    (h201 : (rentalsPost store vehicles userId input newId).1 = 201) :
    ∃ r, rentalsPost store vehicles userId input newId = (201, store ++ [r]) ∧
      r.startDate = s ∧ r.endDate = e ∧
      r.totalCost = ceilDiv (e - s) dayMs * veh.dailyRate := by
  unfold rentalsPost at h201 ⊢
  rw [hv, hsd, hed] at h201 ⊢
  simp only at h201 ⊢
  split_ifs at h201 ⊢ with hfields hge hav
  · simp at h201
  · simp at h201
  · simp at h201
  · rw [hveh] at h201 ⊢
    simp only at h201 ⊢
    rcases hsave : saveNewRental store
        (mkRental newId userId vid s e
          (ceilDiv (e - s) dayMs * veh.dailyRate) input) with _ | store'
    · rw [hsave] at h201
      simp at h201
    · refine ⟨mkRental newId userId vid s e
        (ceilDiv (e - s) dayMs * veh.dailyRate) input, ?_, rfl, rfl, rfl⟩
      simp [saveNewRental_eq_some hsave]

/-- Witness for C7: a 3-night rental (2024-06-01 to 2024-06-04) at daily
rate 50 is created with `totalCost = 150`. -/
theorem created_totalCost_ceil_days_witness :
    (∃ r, rentalsPost [] [exVehicleJune] 7 exInputJune 1 = (201, [] ++ [r]) ∧
      r.startDate = 1717200000000 ∧ r.endDate = 1717459200000 ∧
      r.totalCost = ceilDiv (1717459200000 - 1717200000000) dayMs * 50) ∧
    (rentalsPost [] [exVehicleJune] 7 exInputJune 1).2.map Rental.totalCost =
      [150] :=
  ⟨created_totalCost_ceil_days [] [exVehicleJune] 7 exInputJune 1 3
      1717200000000 1717459200000 exVehicleJune rfl rfl rfl (by decide)
      (by decide),
   by decide⟩

theorem rid_inj {store : List Rental}
    (h : (store.map Rental.rid).Nodup) :
    ∀ a ∈ store, ∀ b ∈ store, a.rid = b.rid → a = b := by
  induction store with
  | nil => simp
  | cons hd tl ih =>
    simp only [List.map_cons, List.nodup_cons] at h
    intro a ha b hb hab
    rw [List.mem_cons] at ha hb
    rcases ha with rfl | ha <;> rcases hb with rfl | hb
    · rfl
    · exfalso
      apply h.1
      rw [hab]
      exact List.mem_map_of_mem Rental.rid hb
    · exfalso
      apply h.1
      rw [← hab]
      exact List.mem_map_of_mem Rental.rid ha
    · exact ih h.2 a ha b hb hab

theorem applyInsuranceKey_spec {r0 r' : Rental}
    {updates : List (String × PVal)}
    (h : applyInsuranceKey r0 updates = some r') :
    r'.rid = r0.rid ∧ r'.user = r0.user ∧ r'.vehicle = r0.vehicle ∧
    r'.startDate = r0.startDate ∧ r'.endDate = r0.endDate ∧
    r'.totalCost = r0.totalCost ∧ r'.status = r0.status := by
  unfold applyInsuranceKey at h
  split at h
  · cases h
    exact ⟨rfl, rfl, rfl, rfl, rfl, rfl, rfl⟩
  · cases h
  · cases h
    exact ⟨rfl, rfl, rfl, rfl, rfl, rfl, rfl⟩

theorem applyDriversKey_spec {r0 r' : Rental}
    {updates : List (String × PVal)}
    (h : applyDriversKey r0 updates = some r') :
    r'.rid = r0.rid ∧ r'.user = r0.user ∧ r'.vehicle = r0.vehicle ∧
    r'.startDate = r0.startDate ∧ r'.endDate = r0.endDate ∧
    r'.totalCost = r0.totalCost ∧ r'.status = r0.status := by
  unfold applyDriversKey at h
  split at h
  · have hs := applyInsuranceKey_spec h
    exact hs
  · cases h
  · exact applyInsuranceKey_spec h

theorem applyRentalUpdates_spec {r r' : Rental}
    {updates : List (String × PVal)}
    (h : applyRentalUpdates r updates = some r') :
    r'.rid = r.rid ∧ r'.user = r.user ∧ r'.vehicle = r.vehicle ∧
    r'.startDate = r.startDate ∧ r'.endDate = r.endDate ∧
    r'.totalCost = r.totalCost ∧
    (getKey updates "status" = none → r'.status = r.status) := by
  unfold applyRentalUpdates at h
  rcases hst : getKey updates "status" with _ | v
  · rw [hst] at h
    unfold applyStatusKey at h
    simp only [] at h
    have hs := applyDriversKey_spec h
    exact ⟨hs.1, hs.2.1, hs.2.2.1, hs.2.2.2.1, hs.2.2.2.2.1, hs.2.2.2.2.2.1,
      fun _ => hs.2.2.2.2.2.2⟩
  · rw [hst] at h
    cases v with
    | pint n => exact absurd h (by simp [applyStatusKey])
    | pstr s =>
      unfold applyStatusKey at h
      simp only [] at h
      rcases hp : parseStatus s with _ | st
      · rw [hp] at h
        cases h
      · rw [hp] at h
        have hs := applyDriversKey_spec h
        refine ⟨hs.1, hs.2.1, hs.2.2.1, hs.2.2.2.1, hs.2.2.2.2.1,
          hs.2.2.2.2.2.1, fun h0 => ?_⟩
        cases h0

theorem cancelDoc_ok {r r' : Rental} (h : cancelDoc r = .ok r') :
    r' = { r with status := .cancelled } := by
  unfold cancelDoc at h
  split at h
  · cases h
  · cases h
    rfl

theorem completeDoc_ok {r r' : Rental} (h : completeDoc r = .ok r') :
    r' = { r with status := .completed } := by
  unfold completeDoc at h
  split at h
  · cases h
  · cases h
    rfl

theorem rentalsIdPut_result (store : List Rental) (rid : Nat)
    (body : List (String × PVal)) :
    (rentalsIdPut store rid body).2 = store ∨
    ∃ r r', findRental store rid = some r ∧ r'.rid = r.rid ∧
      frameFields r' = frameFields r ∧
      (rentalsIdPut store rid body).2 = updateStore store r' := by
  unfold rentalsIdPut
  rcases hf : findRental store rid with _ | r
  · left
    rfl
  · simp only
    split_ifs with h1 h2 h3
    · left
      rfl
    · rcases hc : cancelDoc r with msg | r2
      · left
        rfl
      · have hr2 := cancelDoc_ok hc
        unfold putGuarded putSaveResult saveExistingRental
        simp only []
        split_ifs with hv
        · right
          exact ⟨r, r2, rfl, by rw [hr2], by rw [hr2]; rfl, rfl⟩
        · left
          rfl
    · rcases hc : completeDoc r with msg | r2
      · left
        rfl
      · have hr2 := completeDoc_ok hc
        unfold putGuarded putSaveResult saveExistingRental
        simp only []
        split_ifs with hv
        · right
          exact ⟨r, r2, rfl, by rw [hr2], by rw [hr2]; rfl, rfl⟩
        · left
          rfl
    · rcases ha : applyRentalUpdates r
          (body.filter (fun kv => allowedUpdates.contains kv.1)) with _ | r2
      · left
        rfl
      · have hs := applyRentalUpdates_spec ha
        unfold putAssignResult putSaveResult saveExistingRental
        simp only []
        split_ifs with hv
        · right
          refine ⟨r, r2, rfl, hs.1, ?_, rfl⟩
          unfold frameFields
          rw [hs.2.2.2.1, hs.2.2.2.2.1, hs.2.2.1, hs.2.1, hs.2.2.2.2.2.1]
        · left
          rfl

/-- C8: a rentals PUT never changes any field outside the allow-list
`{status, additionalDrivers, insuranceOption}` — in particular `startDate`,
`endDate`, `vehicle`, `user` and `totalCost` are unchanged at every store
position, even when the patch names such fields.  (Record ids are unique, as
in the database.) -/
theorem put_preserves_frame_fields (store : List Rental) (rid : Nat)
    (body : List (String × PVal)) (hn : (store.map Rental.rid).Nodup)
    (i : Nat) :
    ((rentalsIdPut store rid body).2[i]?).map frameFields =
      (store[i]?).map frameFields := by
  rcases rentalsIdPut_result store rid body with hsame |
    ⟨r, r', hf, hrid, hframe, hupd⟩
  · rw [hsame]
  · rw [hupd]
    unfold updateStore
    rw [List.getElem?_map]
    cases ha : store[i]? with
    | none => rfl
    | some a =>
      have hamem : a ∈ store := List.getElem?_mem ha
      have hrmem : r ∈ store := List.mem_of_find?_eq_some hf
      simp only [Option.map_some']
      by_cases hr : (a.rid == r'.rid) = true
      · rw [if_pos hr]
        have har : a = r := by
          rw [beq_iff_eq] at hr
          exact rid_inj hn a hamem r hrmem (by rw [hr, hrid])
        rw [hframe, har]
      · rw [if_neg hr]

theorem ceilDiv_nonneg {a b : Int} (ha : 0 ≤ a) (hb : 0 < b) :
    0 ≤ ceilDiv a b := by
  unfold ceilDiv
  have h2 : (-a).ediv b ≤ 0 := by
    have h3 := Int.ediv_le_ediv hb (show -a ≤ (0 : Int) by omega)
    rwa [Int.zero_ediv] at h3
  exact neg_nonneg.mpr h2

/-- C10: the create path never consults the vehicle's `isAvailable` flag — a
well-formed create request for an existing vehicle with
`isAvailable = false` and no conflicting pending/active rental succeeds and
persists a pending rental. -/
theorem create_ignores_isAvailable (store : List Rental)
    (vehicles : List Vehicle) (userId : Nat) (input : CreateInput)
    (newId vid : Nat) (s e : Int) (veh : Vehicle)
    (hv : input.vehicleId = some vid) (hsd : input.startDate = some s)
    (hed : input.endDate = some e)
    (hp : input.pickupLocation ≠ "") (hd : input.dropoffLocation ≠ "")
    (hio : input.insuranceOption = "basic" ∨
      input.insuranceOption = "premium" ∨ input.insuranceOption = "full")
    (hpm : input.paymentMethod = "creditCard" ∨
      input.paymentMethod = "debitCard" ∨ input.paymentMethod = "paypal")
    (hdrv : 0 ≤ input.additionalDrivers.getD 0)
    (hlt : s < e)
    (hveh : findVehicle vehicles vid = some veh)
    (hflag : veh.isAvailable = false)
    (hrate : 0 ≤ veh.dailyRate)
    (hav : checkVehicleAvailability store vid s e = true) :
    rentalsPost store vehicles userId input newId =
      (201, store ++
        [mkRental newId userId vid s e
          (ceilDiv (e - s) dayMs * veh.dailyRate) input]) ∧
    (mkRental newId userId vid s e
      (ceilDiv (e - s) dayMs * veh.dailyRate) input).status = .pending := by
  have hge : ¬(s ≥ e) := not_le.2 hlt
  have hi : input.insuranceOption ≠ "" := by
    rcases hio with h | h | h <;> simp [h]
  have hm : input.paymentMethod ≠ "" := by
    rcases hpm with h | h | h <;> simp [h]
  have htc : 0 ≤ ceilDiv (e - s) dayMs * veh.dailyRate :=
    mul_nonneg (ceilDiv_nonneg (by omega) (by norm_num [dayMs])) hrate
  have hvalid : rentalDocValid
      (mkRental newId userId vid s e
        (ceilDiv (e - s) dayMs * veh.dailyRate) input) = true := by
    simp only [rentalDocValid, mkRental, Bool.and_eq_true, Bool.or_eq_true,
      decide_eq_true_eq, beq_iff_eq, bne_iff_ne]
    refine ⟨⟨⟨⟨⟨⟨htc, hdrv⟩, by tauto⟩, by tauto⟩, by simp⟩, hp⟩, hd⟩
  refine ⟨?_, rfl⟩
  unfold rentalsPost
  rw [hv, hsd, hed]
  simp only
  rw [if_neg (by simp [hp, hd, hi, hm]), if_neg hge,
    if_neg (by simp [hav]), hveh]
  simp only
  have hsave : saveNewRental store
      (mkRental newId userId vid s e
        (ceilDiv (e - s) dayMs * veh.dailyRate) input) =
      some (store ++
        [mkRental newId userId vid s e
          (ceilDiv (e - s) dayMs * veh.dailyRate) input]) := by
    unfold saveNewRental
    rw [if_pos]
    rw [Bool.and_eq_true]
    exact ⟨hav, hvalid⟩
  rw [hsave]

/-- Witness for C10: vehicle 1 has `isAvailable = false`, yet the create
request for it succeeds with a pending rental. -/
theorem create_ignores_isAvailable_witness :
    (rentalsPost [] [exVehicle] 7 exInput 1 =
      (201, [] ++ [mkRental 1 7 1 0 10 (ceilDiv (10 - 0) dayMs * 50) exInput]) ∧
     (mkRental 1 7 1 0 10 (ceilDiv (10 - 0) dayMs * 50) exInput).status =
       .pending) ∧
    exVehicle.isAvailable = false :=
  ⟨create_ignores_isAvailable [] [exVehicle] 7 exInput 1 1 0 10 exVehicle
      rfl rfl rfl (by decide) (by decide) (Or.inl rfl) (Or.inl rfl)
      (by decide) (by decide) (by decide) (by decide) (by decide) (by decide),
   rfl⟩

/-- C9 counterexample: the per-id vehicle PUT route writes the request body
straight through `findByIdAndUpdate` (which skips the `pre('save')` hook)
without recomputing `nextServiceDue`.  Updating `lastServiced` of a vehicle
that satisfied the invariant leaves the stale `nextServiceDue` behind. -/
theorem vehicle_idPut_breaks_service_invariant :
    (vehiclesIdPut [⟨1, 50, true, some 0, some ninetyDaysMs⟩] 1
      { lastServiced := some dayMs }).1 = 200 ∧
    (vehiclesIdPut [⟨1, 50, true, some 0, some ninetyDaysMs⟩] 1
      { lastServiced := some dayMs }).2 =
      [⟨1, 50, true, some dayMs, some ninetyDaysMs⟩] ∧
    serviceInvariant ⟨1, 50, true, some 0, some ninetyDaysMs⟩ ∧
    ¬ serviceInvariant ⟨1, 50, true, some dayMs, some ninetyDaysMs⟩ := by
  refine ⟨by decide, by decide, ?_, ?_⟩
  · intro d hd
    cases hd
    rfl
  · intro h
    have h1 := h dayMs rfl
    rw [Option.some_inj] at h1
    norm_num [dayMs, ninetyDaysMs] at h1

/-- C9 amended: a document save that modified `last_serviced` sets
`next_service_due = last_serviced + 90 days` (the `pre('save')` hook), and
the catalog-level vehicle PUT preserves the invariant for every stored
vehicle; but the per-id vehicle PUT route bypasses both, so the equation is
not maintained by every vehicle operation. -/
theorem serviceDue_save_and_catalog_put :
    (∀ (v : Vehicle) (d : Int), v.lastServiced = some d →
      (vehicleSaveHook v true).nextServiceDue = some (d + ninetyDaysMs)) ∧
    (∀ (vehicles : List Vehicle) (vid : Nat) (p : VehiclePatch),
      (∀ v ∈ vehicles, serviceInvariant v) →
      ∀ v' ∈ (vehiclesCatalogPut vehicles vid p).2, serviceInvariant v') := by
  constructor
  · intro v d hd
    simp [vehicleSaveHook, hd]
  · intro vehicles vid p hinv v' hv'
    unfold vehiclesCatalogPut at hv'
    rcases hfind : findVehicle vehicles vid with _ | v0
    · rw [hfind] at hv'
      exact hinv v' hv'
    · rw [hfind] at hv'
      simp only [List.mem_map] at hv'
      obtain ⟨v, hv, rfl⟩ := hv'
      by_cases hvid : (v.vid == vid) = true
      · rw [if_pos hvid]
        rcases hls : p.lastServiced with _ | d
        · intro d' hd'
          simp only [applyVehicleSet, hls, Option.map_none', Option.getD_none,
            Option.map_some'] at hd' ⊢
          exact hinv v hv d' hd'
        · intro d' hd'
          simp only [applyVehicleSet, hls, Option.map_some',
            Option.getD_some] at hd' ⊢
          rw [Option.some_inj] at hd'
          rw [hd']
      · rw [if_neg hvid]
        exact hinv v hv

/-- Witness for C9's amended claim: the save hook recomputes the due date,
and the catalog PUT keeps the invariant on a concrete store. -/
theorem serviceDue_save_and_catalog_put_witness :
    (vehicleSaveHook ⟨1, 50, true, some 5, none⟩ true).nextServiceDue =
      some (5 + ninetyDaysMs) ∧
    serviceInvariant ⟨1, 50, true, some dayMs, some (dayMs + ninetyDaysMs)⟩ :=
  ⟨serviceDue_save_and_catalog_put.1 ⟨1, 50, true, some 5, none⟩ 5 rfl,
   serviceDue_save_and_catalog_put.2 [⟨1, 50, true, some 0, some ninetyDaysMs⟩]
     1 { lastServiced := some dayMs }
     (by
       intro v hv d hd
       rw [List.mem_singleton] at hv
       subst hv
       cases hd
       rfl)
     ⟨1, 50, true, some dayMs, some (dayMs + ninetyDaysMs)⟩
     (by
       rw [show (vehiclesCatalogPut [⟨1, 50, true, some 0, some ninetyDaysMs⟩]
         1 { lastServiced := some dayMs }).2 =
           [⟨1, 50, true, some dayMs, some (dayMs + ninetyDaysMs)⟩] from by decide]
       exact List.mem_singleton.mpr rfl)⟩

/-- C2 counterexample: a reachable trace that breaks the per-vehicle
no-overlap invariant.  Create rental 1 over `[0, 10)` (201), cancel it
(200), create rental 2 over the same window (201, allowed because rental 1
is cancelled), then PUT `status: 'active'` on rental 1: the patch is
assigned directly with no availability or transition check (200), leaving
an active and a pending rental with identical `[0, 10)` windows on vehicle
1. -/
theorem noOverlap_violated_by_status_patch :
    let s1 := (rentalsPost [] [exVehicle] 7 exInput 1).2
    let s2 := (rentalsIdPut s1 1 [("status", PVal.pstr "cancelled")]).2
    let s3 := (rentalsPost s2 [exVehicle] 7 exInput 2).2
    let put4 := rentalsIdPut s3 1 [("status", PVal.pstr "active")]
    (rentalsPost [] [exVehicle] 7 exInput 1).1 = 201 ∧
    (rentalsIdPut s1 1 [("status", PVal.pstr "cancelled")]).1 = 200 ∧
    (rentalsPost s2 [exVehicle] 7 exInput 2).1 = 201 ∧
    noOverlap s3 ∧ put4.1 = 200 ∧ ¬ noOverlap put4.2 := by
  decide

theorem compat_transfer {r r' : Rental}
    (hveh : r'.vehicle = r.vehicle) (hsd : r'.startDate = r.startDate)
    (hed : r'.endDate = r.endDate)
    (hst : r'.status = r.status ∨
      (r'.status ≠ .pending ∧ r'.status ≠ .active)) :
    (∀ x, compat r x → compat r' x) ∧ (∀ x, compat x r → compat x r') := by
  constructor
  · intro x hc h1 h2 h3
    rcases hst with he | ⟨hn1, hn2⟩
    · rw [hsd, hed]
      exact hc (by rw [← hveh]; exact h1) (by rw [← he]; exact h2) h3
    · rcases h2 with h2 | h2
      · exact absurd h2 hn1
      · exact absurd h2 hn2
  · intro x hc h1 h2 h3
    rcases hst with he | ⟨hn1, hn2⟩
    · rw [hsd, hed]
      exact hc (by rw [hveh] at h1; exact h1) h2 (by rw [← he]; exact h3)
    · rcases h3 with h3 | h3
      · exact absurd h3 hn1
      · exact absurd h3 hn2

theorem noOverlap_updateStore {store : List Rental} {rid : Nat}
    {r r' : Rental} (hn : (store.map Rental.rid).Nodup)
    (hinv : noOverlap store) (hf : findRental store rid = some r)
    (hrid : r'.rid = r.rid) (hveh : r'.vehicle = r.vehicle)
    (hsd : r'.startDate = r.startDate) (hed : r'.endDate = r.endDate)
    (hst : r'.status = r.status ∨
      (r'.status ≠ .pending ∧ r'.status ≠ .active)) :
    noOverlap (updateStore store r') := by
  have hrmem : r ∈ store := List.mem_of_find?_eq_some hf
  have key : ∀ x ∈ store, (x.rid == r'.rid) = true → x = r := by
    intro x hx hxr
    rw [beq_iff_eq, hrid] at hxr
    exact rid_inj hn x hx r hrmem hxr
  unfold noOverlap updateStore
  rw [List.pairwise_map]
  refine List.Pairwise.imp_of_mem ?_ hinv
  intro a b ha hb hab
  by_cases hA : (a.rid == r'.rid) = true <;>
    by_cases hB : (b.rid == r'.rid) = true
  · rw [if_pos hA, if_pos hB]
    rw [key a ha hA, key b hb hB] at hab
    exact (compat_transfer hveh hsd hed hst).2 r'
      ((compat_transfer hveh hsd hed hst).1 r hab)
  · rw [if_pos hA, if_neg hB]
    rw [key a ha hA] at hab
    exact (compat_transfer hveh hsd hed hst).1 b hab
  · rw [if_neg hA, if_pos hB]
    rw [key b hb hB] at hab
    exact (compat_transfer hveh hsd hed hst).2 a hab
  · rw [if_neg hA, if_neg hB]
    exact hab

theorem saveNewRental_some {store : List Rental} {r : Rental}
    {store' : List Rental} (h : saveNewRental store r = some store') :
    checkVehicleAvailability store r.vehicle r.startDate r.endDate = true ∧
    store' = store ++ [r] := by
  unfold saveNewRental at h
  by_cases hc : (checkVehicleAvailability store r.vehicle r.startDate
      r.endDate && rentalDocValid r) = true
  · rw [if_pos hc] at h
    rw [Bool.and_eq_true] at hc
    exact ⟨hc.1, (Option.some_inj.mp h).symm⟩
  · rw [if_neg hc] at h
    cases h

/-- C2 amended: the per-vehicle no-overlap invariant over pending/active
rentals is preserved by `createRental` and by every rentals PUT whose status
patch (if any) is `'cancelled'` or `'completed'`; a direct status patch back
to `'active'`/`'pending'` is the one operation that can violate it. -/
theorem noOverlap_preserved_by_create_and_guarded_put (store : List Rental)
    (hinv : noOverlap store) :
    (∀ (vehicles : List Vehicle) (userId : Nat) (input : CreateInput)
        (newId : Nat),
      noOverlap (rentalsPost store vehicles userId input newId).2) ∧
    (∀ (rid : Nat) (body : List (String × PVal)),
      (store.map Rental.rid).Nodup →
      (∀ p : PVal,
        getKey (body.filter (fun kv => allowedUpdates.contains kv.1))
          "status" = some p →
        p = PVal.pstr "cancelled" ∨ p = PVal.pstr "completed") →
      noOverlap (rentalsIdPut store rid body).2) := by
  constructor
  · intro vehicles userId input newId
    unfold rentalsPost
    rcases hv : input.vehicleId with _ | vid
    · exact hinv
    rcases hsd : input.startDate with _ | s
    · exact hinv
    rcases hed : input.endDate with _ | e
    · exact hinv
    simp only
    split_ifs with h1 h2 h3
    · exact hinv
    · exact hinv
    · exact hinv
    rcases hveh : findVehicle vehicles vid with _ | veh
    · exact hinv
    simp only
    rcases hsave : saveNewRental store
        (mkRental newId userId vid s e
          (ceilDiv (e - s) dayMs * veh.dailyRate) input) with _ | store'
    · exact hinv
    obtain ⟨havail, rfl⟩ := saveNewRental_some hsave
    unfold noOverlap
    rw [List.pairwise_append]
    refine ⟨hinv, List.pairwise_singleton _ _, ?_⟩
    intro a ha b hb
    rw [List.mem_singleton] at hb
    subst hb
    intro hveq hsa hsb
    intro hov
    apply (checkVehicleAvailability_iff store vid s e).1 havail a ha
    have hv1 : (a.vehicle == vid) = true := by
      rw [beq_iff_eq]
      exact hveq
    have hv2 : (a.status == RStatus.pending ||
        a.status == RStatus.active) = true := by
      rcases hsa with h | h <;> simp [h]
    unfold conflictsQuery
    simp only [hv1, hv2, Bool.true_and, Bool.or_eq_true, Bool.and_eq_true,
      decide_eq_true_eq]
    exact Or.inl (Or.inl ⟨hov.1, hov.2⟩)
  · intro rid body hn hkey
    unfold rentalsIdPut
    rcases hf : findRental store rid with _ | r
    · exact hinv
    simp only
    split_ifs with h1 h2 h3
    · exact hinv
    · rcases hc : cancelDoc r with msg | r2
      · exact hinv
      have hr2 := cancelDoc_ok hc
      unfold putGuarded putSaveResult saveExistingRental
      simp only
      split_ifs with hvd
      · exact noOverlap_updateStore hn hinv hf (by rw [hr2]) (by rw [hr2])
          (by rw [hr2]) (by rw [hr2])
          (Or.inr ⟨by rw [hr2]; simp, by rw [hr2]; simp⟩)
      · exact hinv
    · rcases hc : completeDoc r with msg | r2
      · exact hinv
      have hr2 := completeDoc_ok hc
      unfold putGuarded putSaveResult saveExistingRental
      simp only
      split_ifs with hvd
      · exact noOverlap_updateStore hn hinv hf (by rw [hr2]) (by rw [hr2])
          (by rw [hr2]) (by rw [hr2])
          (Or.inr ⟨by rw [hr2]; simp, by rw [hr2]; simp⟩)
      · exact hinv
    · rcases ha : applyRentalUpdates r
          (body.filter (fun kv => allowedUpdates.contains kv.1)) with _ | r2
      · exact hinv
      have hs := applyRentalUpdates_spec ha
      have hstat : r2.status = r.status := by
        rcases hgk : getKey
            (body.filter (fun kv => allowedUpdates.contains kv.1))
            "status" with _ | p
        · exact hs.2.2.2.2.2.2 hgk
        · rcases hkey p hgk with rfl | rfl
          · exact absurd (by rw [hgk]; decide) h2
          · exact absurd (by rw [hgk]; decide) h3
      unfold putAssignResult putSaveResult saveExistingRental
      simp only
      split_ifs with hvd
      · exact noOverlap_updateStore hn hinv hf hs.1 hs.2.2.1 hs.2.2.2.1
          hs.2.2.2.2.1 (Or.inl hstat)
      · exact hinv

/-- Witness for C2's amended claim: a create on another vehicle and a
cancelling PUT both preserve the invariant of the concrete one-rental
store. -/
theorem noOverlap_preserved_by_create_and_guarded_put_witness :
    noOverlap (rentalsPost [exRental] [exVehicleJune] 7 exInputJune 9).2 ∧
    noOverlap (rentalsIdPut [exRental] 1
      [("status", PVal.pstr "cancelled")]).2 :=
  ⟨(noOverlap_preserved_by_create_and_guarded_put [exRental] (by decide)).1
      [exVehicleJune] 7 exInputJune 9,
   (noOverlap_preserved_by_create_and_guarded_put [exRental] (by decide)).2
      1 [("status", PVal.pstr "cancelled")] (by decide)
      (fun p hp => Or.inl (Option.some_inj.mp hp).symm)⟩

/-- Witness for C8: a patch naming `startDate` (dropped by the allow-list)
and `status` leaves the frame fields of the stored rental untouched. -/
theorem put_preserves_frame_fields_witness :
    ((rentalsIdPut [exRental] 1
        [("startDate", PVal.pint 999), ("status", PVal.pstr "active")]).2[0]?).map
      frameFields = ([exRental][0]?).map frameFields :=
  put_preserves_frame_fields [exRental] 1
    [("startDate", PVal.pint 999), ("status", PVal.pstr "active")]
    (by decide) 0

end CarNext
